import Mathlib

/-!
Shallow embedding of the market-data-monitor ingestion pipeline
(`src/collector_lighter.py`, `src/collector_hyperliquid.py`,
`src/api/main.py`) and proofs about it.

JSON payloads are modelled by the inductive `JVal`; Python truthiness,
`dict.get`, indexing, `len` and `Decimal(...)` conversion are modelled by
small helper functions.  A raised exception inside a parsing routine is
modelled by `Option`/`Except` failure.  Timestamps are abstract: the single
`datetime.now(timezone.utc)` call per parse invocation becomes a `Nat`
parameter.  `Decimal` values are kept as the raw JSON scalar they were
built from (the conversion preserves exchange-reported precision and plays
no role in the properties proved here); `Decimal(...)` applied to a
non-scalar raises, which the model reflects by returning `none`.
-/

/-- A JSON value as decoded by `response.json()` in the collectors. -/
inductive JVal where
  | null
  | bool (b : Bool)
  | num (q : ℚ)
  | str (s : String)
  | arr (xs : List JVal)
  | obj (fields : List (String × JVal))

namespace JVal

/-- Python truthiness (`bool(v)`): `None`, `False`, `0`, `""`, `[]`, and
an empty dict are falsy; everything else is truthy. -/
def truthy : JVal → Bool
  | .null => false
  | .bool b => b
  | .num q => decide (q ≠ 0)
  | .str s => decide (s ≠ "")
  | .arr xs => !xs.isEmpty
  | .obj fs => !fs.isEmpty

/-- Key lookup in a dict: `some v` when the value is an object containing
the key, `none` otherwise (so `(getField d k).isSome` models `k in d` for
dict `d`, and `getField d k = none` on a non-object models the `KeyError`
or `TypeError` Python would raise on subscripting). -/
def getField (v : JVal) (k : String) : Option JVal :=
  match v with
  | .obj fs => fs.lookup k
  | _ => none

/-- Model of `d.get(k)`: the value when present, Python `None` otherwise. -/
def pyGet (v : JVal) (k : String) : JVal :=
  (v.getField k).getD .null

/-- Model of `v[i]` for an integer index: succeeds only on an array with the index
in range; anything else models a raised `IndexError`/`TypeError`. -/
def pyIndex (v : JVal) (i : Nat) : Option JVal :=
  match v with
  | .arr xs => xs.get? i
  | _ => none

/-- Model of `len(v)`: defined for arrays, strings and dicts; otherwise raises. -/
def pyLen : JVal → Option Nat
  | .arr xs => some xs.length
  | .str s => some s.length
  | .obj fs => some fs.length
  | _ => none

/-- The value viewed as a Python string (the collectors take `name`, `exchange`
and `symbol` fields to be strings, per the upstream wire contracts). -/
def asStr : JVal → Option String
  | .str s => some s
  | _ => none

/-- Model of `Decimal(v)` and `Decimal(str(v))`: succeeds on a scalar, which the model
keeps unconverted; a non-scalar argument models a raised conversion error. -/
def pyDecimal : JVal → Option JVal
  | .str s => some (.str s)
  | .num q => some (.num q)
  | _ => none

/-- Model of `isinstance(v, dict)`. -/
def isObj : JVal → Bool
  | .obj _ => true
  | _ => false

end JVal

/-- Python dict assignment `d[k] = v` on an insertion-ordered dict
represented as an association list: an existing key keeps its position and
gets the new value, a new key is appended.  The direct-exchange collector
keys its dict by the symbol name, the aggregator collector by the
`(exchange, symbol)` pair. -/
def dinsert {α β : Type} [BEq α] (d : List (α × β)) (k : α) (v : β) :
    List (α × β) :=
  if d.any (fun p => p.1 == k) then
    d.map (fun p => if p.1 == k then (k, v) else p)
  else d ++ [(k, v)]

/-- Processing of a Python `for` loop body over a list where the body may
raise: elements are handled in order and the first exception aborts the
whole computation (`none`). -/
def mapOpt {α β : Type} (f : α → Option β) : List α → Option (List β)
  | [] => some []
  | x :: xs => do
    let y ← f x
    let ys ← mapOpt f xs
    pure (y :: ys)

/-- One normalized market-data observation, as built by the collectors'
`parse_response` and consumed by `insert_market_data_batch`.  `time` is the
abstract collection instant; the six measurements are optional decimals
held as the raw scalar they were converted from. -/
structure NRecord where
  time : Nat
  exchange : String
  symbol : String
  price : Option JVal
  volume_24h : Option JVal
  open_interest : Option JVal
  funding_rate : Option JVal
  bid : Option JVal
  ask : Option JVal

/-! ## Aggregator collector (`src/collector_lighter.py`) -/

/-- Retry settings (`src/collector_lighter.py` lines 20-23). -/
def MAX_RETRIES : Nat := 3

/-- Seconds between retries (`RETRY_DELAY = 60`). -/
def RETRY_DELAY : Nat := 60

/-- The `EXCHANGE_MAP` table: exchange name mapping to distinguish aggregator-sourced
rows from direct API sources (`src/collector_lighter.py` lines 26-31). -/
def EXCHANGE_MAP : List (String × String) :=
  [("binance", "binance_lighter"),
   ("bybit", "bybit_lighter"),
   ("hyperliquid", "hyperliquid_lighter"),
   ("lighter", "lighter")]

/-- Model of `EXCHANGE_MAP.get(original_exchange, original_exchange)`: the induced
total name-mapping function. -/
def mapExchange (e : String) : String :=
  (EXCHANGE_MAP.lookup e).getD e

/-- Model of `LighterCollector.validate_response`: checks the payload is a dict with
a `code` field and a `funding_rates` list whose every record carries
`market_id`, `exchange`, `symbol` and `rate`; any violation raises
`ValueError`, modelled as `Except.error` with the message text. -/
def validate_response (data : JVal) : Except String Unit :=
  match data with
  | .obj _ =>
    if (data.getField "code").isNone then
      .error "Response missing code field"
    else if (data.getField "funding_rates").isNone then
      .error "Response missing funding_rates field"
    else
      match data.getField "funding_rates" with
      | some (.arr records) =>
        if records.all (fun record =>
            ["market_id", "exchange", "symbol", "rate"].all
              (fun f => (record.getField f).isSome)) then
          .ok ()
        else
          .error "Record missing required fields"
      | _ => .error "funding_rates must be a list"
  | _ => .error "Response must be a dictionary"

/-- One record of the aggregator payload turned into a keyed `NRecord`
(the body of the `for record in funding_rates` loop in
`LighterCollector.parse_response`); `none` models a raised exception. -/
def lighterRow (t : Nat) (record : JVal) : Option ((String × String) × NRecord) := do
  let exV ← record.getField "exchange"
  let originalExchange ← exV.asStr
  let mappedExchange := mapExchange originalExchange
  let symV ← record.getField "symbol"
  let symbol ← symV.asStr
  let rateV ← record.getField "rate"
  let rate ← rateV.pyDecimal
  pure ((mappedExchange, symbol),
    { time := t, exchange := mappedExchange, symbol := symbol,
      price := none, volume_24h := none, open_interest := none,
      funding_rate := some rate, bid := none, ask := none })

/-- Model of `LighterCollector.parse_response`: returns the insertion-ordered dict
keyed by `(mapped_exchange, symbol)`; `t` is the one
`datetime.now(timezone.utc)` taken for the whole batch; `none` models an
exception escaping the loop. -/
def parse_response_lighter (data : JVal) (t : Nat) :
    Option (List ((String × String) × NRecord)) :=
  if data.truthy = false then some [] else
  match data.getField "funding_rates" with
  | none => some []
  | some fr =>
    match fr with
    | .arr records => do
      let rows ← mapOpt (lighterRow t) records
      pure (rows.foldl (fun d kv => dinsert d kv.1 kv.2) [])
    | _ => none

/-! ## Resilient fetch driver (`LighterCollector.fetch_funding_rates`) -/

/-- Outcome of one HTTP attempt, supplied by the environment: a response
with a status code and (JSON) body, a timeout (`asyncio.TimeoutError`), or
any other exception during the request (connection reset, protocol error). -/
inductive HttpOutcome where
  | status (code : Nat) (body : JVal)
  | timeout
  | netError

/-- What one attempt of `fetch_funding_rates` does before any retry logic:
either the function returns a value to the caller (`ret`) or control
reaches a retry branch (`retryable`).  A 200 response is validated and then
parsed; a `ValueError` from validation — like any exception raised inside
the `try` block, parse errors included — lands in the generic
`except Exception` handler, hence `retryable`.  A non-200 response prints
and returns `None` at once.  The `Except String` layer is the channel an
uncaught exception would use; no branch of the source produces one. -/
def attemptStep (t : Nat) : HttpOutcome →
    Except String (Option (List ((String × String) × NRecord))) ⊕ Unit
  | .timeout => .inr ()
  | .netError => .inr ()
  | .status code body =>
    if code = 200 then
      match validate_response body with
      | .error _ => .inr ()
      | .ok _ =>
        match parse_response_lighter body t with
        | some m => .inl (.ok (some m))
        | none => .inr ()
    else .inl (.ok none)

/-- Recursion worker for the fetch driver.  The source recurses with
`retry_count + 1` guarded by `retry_count < MAX_RETRIES`; here the same
control flow is driven by the remaining budget `MAX_RETRIES - retry_count`
so that the recursion is structural (`budget > 0 ↔ retry_count <
MAX_RETRIES` whenever `budget = MAX_RETRIES - retry_count`, for every
`retry_count`).  Alongside the returned value it records the list of delays
slept before each retry, in order. -/
def fetchAux (env : Nat → HttpOutcome) (t : Nat) :
    Nat → Nat → Except String (Option (List ((String × String) × NRecord))) × List Nat
  | rc, 0 =>
    match attemptStep t (env rc) with
    | .inl r => (r, [])
    | .inr _ => (.ok none, [])
  | rc, budget + 1 =>
    match attemptStep t (env rc) with
    | .inl r => (r, [])
    | .inr _ =>
      let (r, ds) := fetchAux env t (rc + 1) budget
      (r, RETRY_DELAY * (rc + 1) :: ds)

/-- Model of `LighterCollector.fetch_funding_rates(session, retry_count)`: `env n`
is the outcome of the attempt made with `retry_count = n`, `t` the abstract
collection instant.  Returns the value the coroutine returns (or the
exception it would raise, which never happens) together with the sleeps
performed between attempts. -/
def fetch_funding_rates (env : Nat → HttpOutcome) (t : Nat) (rc : Nat) :
    Except String (Option (List ((String × String) × NRecord))) × List Nat :=
  fetchAux env t rc (MAX_RETRIES - rc)

/-! ## Direct-exchange collector (`src/collector_hyperliquid.py`) -/

/-- Model of `Decimal(market_info[k]) if market_info.get(k) else None`: the guard is
Python truthiness of `market_info.get(k)`, so a present-but-falsy value
yields `None` exactly like an absent key.  The outer `Option` models a
raised conversion error; the inner one is the nullable record field. -/
def hlOptField (market_info : JVal) (k : String) : Option (Option JVal) :=
  let v := market_info.pyGet k
  if v.truthy then (v.pyDecimal).map some else some none

/-- Model of `Decimal(market_info['impactPxs'][0]) if market_info.get('impactPxs')
else None`, with `ipx` the value of `market_info.get('impactPxs')`. -/
def bidOf (ipx : JVal) : Option (Option JVal) :=
  if ipx.truthy then do
    let x ← ipx.pyIndex 0
    let d ← x.pyDecimal
    pure (some d)
  else pure none

/-- Model of `Decimal(market_info['impactPxs'][1]) if market_info.get('impactPxs')
and len(market_info['impactPxs']) > 1 else None` (the `and` short-circuits,
so `len` is only evaluated on a truthy value). -/
def askOf (ipx : JVal) : Option (Option JVal) :=
  if ipx.truthy then do
    let n ← ipx.pyLen
    if 1 < n then do
      let x ← ipx.pyIndex 1
      let d ← x.pyDecimal
      pure (some d)
    else pure none
  else pure none

/-- One iteration of the `for i, symbol_info in enumerate(universe)` loop
of `HyperliquidCollector.parse_response`, for a position that survives the
`i >= len(market_data)` skip: builds the keyed record, or `none` when the
body would raise.  `bid`/`ask` come from the impact-price array: `bid` when
`impactPxs` is truthy, `ask` additionally requiring `len(...) > 1`. -/
def hlRow (t : Nat) (symbol_info market_info : JVal) : Option (String × NRecord) := do
  let nameV ← symbol_info.getField "name"
  let symbol_name ← nameV.asStr
  let ipx := market_info.pyGet "impactPxs"
  let bid ← bidOf ipx
  let ask ← askOf ipx
  let price ← hlOptField market_info "markPx"
  let volume ← hlOptField market_info "dayNtlVlm"
  let oi ← hlOptField market_info "openInterest"
  let funding ← hlOptField market_info "funding"
  pure (symbol_name,
    { time := t, exchange := "hyperliquid", symbol := symbol_name,
      price := price, volume_24h := volume, open_interest := oi,
      funding_rate := funding, bid := bid, ask := ask })

/-- Model of `HyperliquidCollector.parse_response`: empty result on a falsy payload
or one of fewer than two elements; otherwise pairs `universe[i]` with
`market_data[i]` (positions `i ≥ len(market_data)` are skipped by
`continue`, so exactly the first `min U M` positions contribute) and
collects the rows into an insertion-ordered dict keyed by the universe
entry's `name`.  `none` models an exception escaping the function. -/
def parse_response_hl (data : JVal) (t : Nat) :
    Option (List (String × NRecord)) :=
  if data.truthy = false then some [] else
  match data with
  | .arr xs =>
    if xs.length < 2 then some [] else
    match (xs.getD 0 .null).getField "universe", xs.getD 1 .null with
    | some (.arr univ), .arr market_data => do
      let rows ← mapOpt (fun p => hlRow t p.1 p.2) (univ.zip market_data)
      pure (rows.foldl (fun d kv => dinsert d kv.1 kv.2) [])
    | _, _ => none
  | _ => none

/-! ## Connection-health store (`DatabaseWriter`) -/

/-- The visible state of the one database connection a collector owns: the
rows already committed to `market_data` and the rows staged inside the
currently open transaction (psycopg2 opens a transaction implicitly at the
first statement and closes it at `commit()`/`rollback()`). -/
structure DBState where
  committed : List NRecord
  staged : List NRecord

/-- Model of `cursor.executemany(query, batch_data)` under fault injection:
`failAt = some k` makes the `k`-th row insert raise after the first `k`
rows were staged (`k ≥ length` and `failAt = none` mean no fault fires).
Returns the staged rows and whether the statement succeeded. -/
def stageRows (staged : List NRecord) (batch : List NRecord)
    (failAt : Option Nat) : List NRecord × Bool :=
  match failAt with
  | none => (staged ++ batch, true)
  | some k =>
    if k < batch.length then (staged ++ batch.take k, false)
    else (staged ++ batch, true)

/-- Model of `DatabaseWriter.insert_market_data_batch(data_list)`: empty list is a
no-op; otherwise all rows go through one `executemany`, then `commit()`.
Any failure triggers `rollback()` and re-raises (`raise`), reported as the
`some`-error in the second component. -/
def insert_market_data_batch (st : DBState) (batch : List NRecord)
    (failAt : Option Nat) : DBState × Option String :=
  if batch.isEmpty then (st, none) else
  let (staged, ok) := stageRows st.staged batch failAt
  if ok then
    ({ committed := st.committed ++ staged, staged := [] }, none)
  else
    ({ committed := st.committed, staged := [] }, some "Error batch inserting data")

/-! ## Aggregation query engine (`src/api/main.py`) -/

/-- One row of the aggregation query result: a symbol with its windowed
mean funding rate (SQL `AVG`, modelled as an exact rational) and the
contributing sample count. -/
structure AggRow where
  symbol : String
  funding_3d_avg : ℚ
  data_points : Nat

/-- One row of the all-exchanges aggregation query result. -/
structure AggRowEx where
  exchange : String
  symbol : String
  avg_funding_rate : ℚ
  data_points : Nat

/-- The `/api/funding-rates` post-processing (`get_funding_rates`): from
`all_symbols`, the query result already ordered ascending by mean rate,
`top_10_long = all_symbols[:10] if len(all_symbols) >= 10 else all_symbols`. -/
def top_10_long (all_symbols : List AggRow) : List AggRow :=
  if 10 ≤ all_symbols.length then all_symbols.take 10 else all_symbols

/-- Model of `top_10_short = all_symbols[-10:][::-1] if len(all_symbols) >= 10 else []`. -/
def top_10_short (all_symbols : List AggRow) : List AggRow :=
  if 10 ≤ all_symbols.length then
    (all_symbols.drop (all_symbols.length - 10)).reverse
  else []

/-- Python's stable `sorted(xs, key=avg_funding_rate)`. -/
def sortedByRate (xs : List AggRowEx) : List AggRowEx :=
  xs.mergeSort (fun a b => decide (a.avg_funding_rate ≤ b.avg_funding_rate))

/-- Python's stable `sorted(xs, key=avg_funding_rate, reverse=True)`:
a stable sort under the reversed comparison (ties keep input order, which
is what CPython's `reverse=True` does). -/
def sortedByRateDesc (xs : List AggRowEx) : List AggRowEx :=
  xs.mergeSort (fun a b => decide (b.avg_funding_rate ≤ a.avg_funding_rate))

/-- The `/api/funding-rates-by-exchange` per-venue long list
(`get_funding_rates_by_exchange`): filter to the venue, sort ascending,
truncate to 10. -/
def long_opportunities (all_data : List AggRowEx) (exchange : String) :
    List AggRowEx :=
  (sortedByRate (all_data.filter (fun r => r.exchange == exchange))).take 10

/-- The `/api/funding-rates-by-exchange` per-venue short list: filter, sort
descending, truncate to 10. -/
def short_opportunities (all_data : List AggRowEx) (exchange : String) :
    List AggRowEx :=
  (sortedByRateDesc (all_data.filter (fun r => r.exchange == exchange))).take 10

/-- The backoff schedule the driver sleeps through when attempts keep
failing: delays `RETRY_DELAY * (rc + 1), RETRY_DELAY * (rc + 2), ...`, one
per remaining retry. -/
def backoffDelays (rc : Nat) : Nat → List Nat
  | 0 => []
  | b + 1 => RETRY_DELAY * (rc + 1) :: backoffDelays (rc + 1) b

/-- A sample normalized record used to instantiate proved properties on
concrete inputs. -/
def recBTC : NRecord :=
  { time := 1, exchange := "hyperliquid", symbol := "BTC",
    price := none, volume_24h := none, open_interest := none,
    funding_rate := none, bid := none, ask := none }

/-! ## Helper lemmas -/

/-- A successful loop over a list produces one output per input. -/
theorem mapOpt_length {α β : Type} (f : α → Option β) :
    ∀ (xs : List α) (ys : List β), mapOpt f xs = some ys → ys.length = xs.length
  | [], ys, h => by simp [mapOpt] at h; simp [← h]
  | x :: xs, ys, h => by
    rcases hx : f x with _ | y
    · simp [mapOpt, hx] at h
    · rcases hxs : mapOpt f xs with _ | ys'
      · simp [mapOpt, hx, hxs] at h
      · simp [mapOpt, hx, hxs] at h
        simp [← h, mapOpt_length f xs ys' hxs]

/-- Every output of a successful loop comes from some input element. -/
theorem mapOpt_mem {α β : Type} (f : α → Option β) :
    ∀ (xs : List α) (ys : List β), mapOpt f xs = some ys →
      ∀ b ∈ ys, ∃ a ∈ xs, f a = some b
  | [], ys, h, b, hb => by simp [mapOpt] at h; subst h; simp at hb
  | x :: xs, ys, h, b, hb => by
    rcases hx : f x with _ | y
    · simp [mapOpt, hx] at h
    · rcases hxs : mapOpt f xs with _ | ys'
      · simp [mapOpt, hx, hxs] at h
      · simp [mapOpt, hx, hxs] at h
        subst h
        rcases List.mem_cons.mp hb with hb | hb
        · exact ⟨x, List.mem_cons_self x xs, by rw [hx, hb]⟩
        · rcases mapOpt_mem f xs ys' hxs b hb with ⟨a, ha, hfa⟩
          exact ⟨a, List.mem_cons_of_mem x ha, hfa⟩

/-- A successful loop maps the input at position `i` to the output at
position `i`. -/
theorem mapOpt_get? {α β : Type} (f : α → Option β) :
    ∀ (xs : List α) (ys : List β), mapOpt f xs = some ys →
      ∀ (i : Nat) (a : α), xs.get? i = some a →
        ∃ b, ys.get? i = some b ∧ f a = some b
  | [], ys, h, i, a, ha => by simp at ha
  | x :: xs, ys, h, i, a, ha => by
    rcases hx : f x with _ | y
    · simp [mapOpt, hx] at h
    · rcases hxs : mapOpt f xs with _ | ys'
      · simp [mapOpt, hx, hxs] at h
      · simp [mapOpt, hx, hxs] at h
        subst h
        match i with
        | 0 => simp_all
        | i + 1 =>
          simp only [List.get?_cons_succ] at ha ⊢
          exact mapOpt_get? f xs ys' hxs i a ha

/-- Zipping preserves positionwise membership. -/
theorem zip_get? {α β : Type} :
    ∀ (l₁ : List α) (l₂ : List β) (i : Nat) (a : α) (b : β),
      l₁.get? i = some a → l₂.get? i = some b →
      (l₁.zip l₂).get? i = some (a, b)
  | [], _, i, a, b, ha, hb => by simp at ha
  | _ :: _, [], i, a, b, ha, hb => by simp at hb
  | x :: xs, y :: ys, 0, a, b, ha, hb => by
    simp at ha hb; simp [List.zip_cons_cons, ha, hb]
  | x :: xs, y :: ys, i + 1, a, b, ha, hb => by
    simp only [List.get?_cons_succ] at ha hb
    simpa [List.zip_cons_cons] using zip_get? xs ys i a b ha hb

/-- Membership after a dict assignment: either an element that was already
there, or the assigned pair. -/
theorem mem_dinsert {α β : Type} [BEq α] (d : List (α × β)) (k : α) (v : β)
    (x : α × β) (hx : x ∈ dinsert d k v) : x ∈ d ∨ x = (k, v) := by
  unfold dinsert at hx
  split at hx
  · rcases List.mem_map.mp hx with ⟨p, hp, he⟩
    by_cases h : (p.1 == k) = true
    · rw [if_pos h] at he; exact Or.inr he.symm
    · rw [if_neg h] at he; exact Or.inl (he ▸ hp)
  · rcases List.mem_append.mp hx with h | h
    · exact Or.inl h
    · exact Or.inr (List.mem_singleton.mp h)

/-- Membership in a dict built by repeated assignment: every entry of the
result was in the seed dict or is one of the assigned pairs. -/
theorem mem_foldl_dinsert {α β : Type} [BEq α] :
    ∀ (rows : List (α × β)) (d : List (α × β)) (x : α × β),
      x ∈ rows.foldl (fun d kv => dinsert d kv.1 kv.2) d → x ∈ d ∨ x ∈ rows
  | [], d, x, hx => Or.inl hx
  | kv :: rows, d, x, hx => by
    rcases mem_foldl_dinsert rows (dinsert d kv.1 kv.2) x hx with h | h
    · rcases mem_dinsert d kv.1 kv.2 x h with h' | h'
      · exact Or.inl h'
      · exact Or.inr (by simp [h'])
    · exact Or.inr (List.mem_cons_of_mem kv h)

/-- Assigning a key absent from the dict appends the pair. -/
theorem dinsert_not_mem {α β : Type} [BEq α] [LawfulBEq α]
    (d : List (α × β)) (k : α) (v : β) (h : ∀ p ∈ d, p.1 ≠ k) :
    dinsert d k v = d ++ [(k, v)] := by
  unfold dinsert
  rw [if_neg]
  simp only [List.any_eq_true, not_exists, not_and]
  intro p hp
  simpa using h p hp

/-- Building a dict by assigning rows whose keys are pairwise distinct and
distinct from the seed's keys appends the rows in order. -/
theorem foldl_dinsert_nodup {α β : Type} [BEq α] [LawfulBEq α] :
    ∀ (rows : List (α × β)) (d : List (α × β)),
      (rows.map Prod.fst).Nodup → (∀ p ∈ d, ∀ q ∈ rows, p.1 ≠ q.1) →
      rows.foldl (fun d kv => dinsert d kv.1 kv.2) d = d ++ rows
  | [], d, _, _ => by simp
  | kv :: rows, d, hnd, hdis => by
    have h1 : ∀ p ∈ d, p.1 ≠ kv.1 :=
      fun p hp => hdis p hp kv (List.mem_cons_self kv rows)
    have step : dinsert d kv.1 kv.2 = d ++ [(kv.1, kv.2)] :=
      dinsert_not_mem d kv.1 kv.2 h1
    have hnd' : (rows.map Prod.fst).Nodup := by
      simpa using (List.nodup_cons.mp (by simpa using hnd)).2
    have hdis' : ∀ p ∈ d ++ [(kv.1, kv.2)], ∀ q ∈ rows, p.1 ≠ q.1 := by
      intro p hp q hq
      rcases List.mem_append.mp hp with h | h
      · exact hdis p h q (List.mem_cons_of_mem kv hq)
      · have hp' : p = (kv.1, kv.2) := List.mem_singleton.mp h
        have hk : kv.1 ∉ rows.map Prod.fst :=
          (List.nodup_cons.mp (by simpa using hnd)).1
        intro he
        have he' : kv.1 = q.1 := by rw [← he, hp']
        exact hk (by rw [he']; exact List.mem_map.mpr ⟨q, hq, rfl⟩)
    calc (kv :: rows).foldl (fun d kv => dinsert d kv.1 kv.2) d
        = rows.foldl (fun d kv => dinsert d kv.1 kv.2) (d ++ [(kv.1, kv.2)]) := by
          simp [List.foldl_cons, step]
      _ = (d ++ [(kv.1, kv.2)]) ++ rows := foldl_dinsert_nodup rows _ hnd' hdis'
      _ = d ++ (kv :: rows) := by simp

/-- A value whose string view succeeds is that string. -/
theorem JVal.asStr_eq_some {v : JVal} {s : String} (h : v.asStr = some s) :
    v = .str s := by
  cases v <;> simp_all [JVal.asStr]

/-- A successful field lookup means the value is a dict. -/
theorem JVal.getField_some_obj {v : JVal} {k : String} {x : JVal}
    (h : v.getField k = some x) : ∃ fs, v = .obj fs := by
  cases v <;> simp_all [JVal.getField]

/-- Characterization of a successful aggregator loop iteration: the record
has string `exchange` and `symbol` fields and a convertible `rate`, and the
emitted entry is keyed by the mapped exchange paired with the symbol, all
non-rate measurements absent. -/
theorem lighterRow_spec (t : Nat) (record : JVal) (kv : (String × String) × NRecord)
    (h : lighterRow t record = some kv) :
    ∃ e sym rate,
      record.getField "exchange" = some (JVal.str e) ∧
      record.getField "symbol" = some (JVal.str sym) ∧
      (∃ rateV, record.getField "rate" = some rateV ∧ rateV.pyDecimal = some rate) ∧
      kv = ((mapExchange e, sym),
        { time := t, exchange := mapExchange e, symbol := sym,
          price := none, volume_24h := none, open_interest := none,
          funding_rate := some rate, bid := none, ask := none }) := by
  simp only [lighterRow, Option.bind_eq_some, Option.pure_def, Option.some.injEq, bind,
    Option.bind_eq_some] at h
  obtain ⟨exV, h1, e, h2, symV, h3, sym, h4, rateV, h5, rate, h6, h7⟩ := h
  refine ⟨e, sym, rate, ?_, ?_, ⟨rateV, h5, h6⟩, h7.symm⟩
  · rw [h1, JVal.asStr_eq_some h2]
  · rw [h3, JVal.asStr_eq_some h4]

/-- Characterization of a successful direct-exchange loop iteration: the
universe entry has a string `name`, which keys the record; the record's
time is the batch instant and its exchange the fixed venue name. -/
theorem hlRow_spec (t : Nat) (si mi : JVal) (kv : String × NRecord)
    (h : hlRow t si mi = some kv) :
    si.getField "name" = some (JVal.str kv.1) ∧
    kv.2.time = t ∧ kv.2.exchange = "hyperliquid" ∧ kv.2.symbol = kv.1 ∧
    bidOf (mi.pyGet "impactPxs") = some kv.2.bid ∧
    askOf (mi.pyGet "impactPxs") = some kv.2.ask := by
  simp only [hlRow, bind, Option.bind_eq_some, Option.pure_def, Option.some.injEq] at h
  obtain ⟨nameV, h1, nm, h2, bid, hbid, ask, hask, price, hp, vol, hv, oi, hoi,
    fund, hf, h7⟩ := h
  subst h7
  refine ⟨?_, rfl, rfl, rfl, hbid, hask⟩
  rw [h1, JVal.asStr_eq_some h2]

/-- When every attempt lands in a retry branch, the driver makes
`budget + 1` attempts, sleeping the linearly growing delays, and finally
returns no data. -/
theorem fetchAux_all_retryable (env : Nat → HttpOutcome) (t : Nat)
    (h : ∀ n, attemptStep t (env n) = .inr ()) :
    ∀ (budget rc : Nat), fetchAux env t rc budget =
      (.ok none, backoffDelays rc budget)
  | 0, rc => by simp [fetchAux, h rc, backoffDelays]
  | budget + 1, rc => by
    rw [fetchAux, h rc]
    simp [fetchAux_all_retryable env t h budget (rc + 1), backoffDelays]

/-- When the very first attempt returns, the driver performs no retry. -/
theorem fetch_first_return (env : Nat → HttpOutcome) (t : Nat) (rc : Nat)
    (r : Except String (Option (List ((String × String) × NRecord))))
    (h : attemptStep t (env rc) = .inl r) :
    fetch_funding_rates env t rc = (r, []) := by
  unfold fetch_funding_rates
  cases hb : MAX_RETRIES - rc with
  | zero => simp [fetchAux, h]
  | succ b => simp [fetchAux, h]

/-! ## Claims -/

/-- C1: for every non-empty batch, if `insert_market_data_batch` fails at
any point during the insert the whole transaction is rolled back — the
committed table is unchanged, no row of the batch is persisted — and the
error is re-raised to the caller; on success all rows are committed in the
one transaction. -/
theorem C1_insert_batch_atomic (st : DBState) (batch : List NRecord)
    (failAt : Option Nat) (hne : batch ≠ []) (hst : st.staged = []) :
    (∀ k, failAt = some k → k < batch.length →
       insert_market_data_batch st batch failAt =
         ({ committed := st.committed, staged := [] }, some "Error batch inserting data")) ∧
    (failAt = none →
       insert_market_data_batch st batch failAt =
         ({ committed := st.committed ++ batch, staged := [] }, none)) := by
  constructor
  · intro k hk hlt
    subst hk
    simp [insert_market_data_batch, stageRows, List.isEmpty_iff, hne, hlt, hst]
  · intro hf
    subst hf
    simp [insert_market_data_batch, stageRows, List.isEmpty_iff, hne, hst]

/-- Witness for C1 at a one-record batch: a fault on the first row leaves
the table unchanged and surfaces the error; no fault commits the row. -/
theorem C1_insert_batch_atomic_witness :
    insert_market_data_batch ⟨[], []⟩ [recBTC] (some 0) =
      ({ committed := [], staged := [] }, some "Error batch inserting data") ∧
    insert_market_data_batch ⟨[], []⟩ [recBTC] none =
      ({ committed := [recBTC], staged := [] }, none) :=
  ⟨(C1_insert_batch_atomic ⟨[], []⟩ [recBTC] (some 0) (by simp) rfl).1 0 rfl (by simp),
   (C1_insert_batch_atomic ⟨[], []⟩ [recBTC] none (by simp) rfl).2 rfl⟩

/-- C5: on consecutive timeouts the driver retries exactly `MAX_RETRIES`
times (so `MAX_RETRIES + 1` attempts), the `k`-th retry preceded by a
sleep of `RETRY_DELAY * k` seconds, and finally returns no data (`None`)
without raising. -/
theorem C5_timeout_retry_schedule (env : Nat → HttpOutcome) (t : Nat)
    (h : ∀ n, env n = .timeout) :
    fetch_funding_rates env t 0 =
      (.ok none, [RETRY_DELAY * 1, RETRY_DELAY * 2, RETRY_DELAY * 3]) ∧
    [RETRY_DELAY * 1, RETRY_DELAY * 2, RETRY_DELAY * 3].length = MAX_RETRIES := by
  have he : env = fun _ => .timeout := funext h
  subst he
  exact ⟨rfl, rfl⟩

/-- Witness for C5: the constant-timeout environment. -/
theorem C5_timeout_retry_schedule_witness :
    fetch_funding_rates (fun _ => .timeout) 0 0 = (.ok none, [60, 120, 180]) :=
  (C5_timeout_retry_schedule (fun _ => .timeout) 0 (fun _ => rfl)).1

/-- C2 as stated is false: a 200 response whose body fails validation
(here an empty dict, rejected for the missing `code` field) is retried the
full `MAX_RETRIES` times — the three backoff sleeps occur — and the
validation error never surfaces: the driver returns plain no-data. -/
theorem C2_counterexample :
    validate_response (JVal.obj []) = .error "Response missing code field" ∧
    fetch_funding_rates (fun _ => .status 200 (JVal.obj [])) 0 0 =
      (.ok none, [60, 120, 180]) :=
  ⟨rfl, rfl⟩

/-- C2 amended: a payload failing validation raises `ValueError`, which the
blanket `except Exception` handler catches and retries exactly like a
transient failure; when every attempt yields such a payload the driver,
after `MAX_RETRIES` retries with the linear backoff, degrades the tick to
no data instead of surfacing the validation error. -/
theorem C2_validation_failure_retried (env : Nat → HttpOutcome) (t : Nat)
    (h : ∀ n, ∃ b e, env n = .status 200 b ∧ validate_response b = .error e) :
    fetch_funding_rates env t 0 =
      (.ok none, [RETRY_DELAY * 1, RETRY_DELAY * 2, RETRY_DELAY * 3]) := by
  have step : ∀ n, attemptStep t (env n) = .inr () := by
    intro n
    obtain ⟨b, e, hb, he⟩ := h n
    rw [hb]
    simp [attemptStep, he]
  exact fetchAux_all_retryable env t step 3 0

/-- Witness for the amended C2: every attempt serves the invalid empty
dict. -/
theorem C2_validation_failure_retried_witness :
    fetch_funding_rates (fun _ => .status 200 (JVal.obj [])) 1 0 =
      (.ok none, [60, 120, 180]) :=
  C2_validation_failure_retried (fun _ => .status 200 (JVal.obj [])) 1
    (fun _ => ⟨JVal.obj [], "Response missing code field", rfl, rfl⟩)

/-- C3 as stated is false: a non-200 status is not retried at all.  In an
environment whose first attempt returns HTTP 500 and whose later attempts
would time out, the driver returns no data immediately with zero retries
(empty delay list) — it never reaches the later attempts. -/
theorem C3_counterexample :
    fetch_funding_rates (fun n => if n = 0 then .status 500 .null else .timeout) 0 0 =
      (.ok none, []) := rfl

/-- C3 amended: a non-200 HTTP status is not treated as transient — the
fetch logs it and returns no data for the tick immediately, consuming no
retries; only timeouts and raised exceptions go through the retry path. -/
theorem C3_non200_not_retried (env : Nat → HttpOutcome) (t : Nat) (c : Nat)
    (b : JVal) (h0 : env 0 = .status c b) (hc : c ≠ 200) :
    fetch_funding_rates env t 0 = (.ok none, []) := by
  apply fetch_first_return
  rw [h0]
  simp [attemptStep, hc]

/-- Witness for the amended C3: an HTTP 404 on the first attempt. -/
theorem C3_non200_not_retried_witness :
    fetch_funding_rates (fun _ => .status 404 (JVal.obj [])) 0 0 = (.ok none, []) :=
  C3_non200_not_retried (fun _ => .status 404 (JVal.obj [])) 0 404 (JVal.obj [])
    rfl (by decide)

/-- C6: every record emitted by the aggregator parser carries the
mapping-table image of its input `exchange` field (the original value when
not a key of the table), and the induced name-mapping function is total
(defined on every string) and idempotent. -/
theorem C6_exchange_mapping :
    (∀ s, mapExchange (mapExchange s) = mapExchange s) ∧
    (∀ data t rows, parse_response_lighter data t = some rows →
       ∀ kv ∈ rows, ∃ records record,
         data.getField "funding_rates" = some (.arr records) ∧ record ∈ records ∧
         ∃ e, record.getField "exchange" = some (.str e) ∧
           kv.2.exchange = mapExchange e ∧ kv.1.1 = mapExchange e) := by
  have key : ∀ s, s ≠ "binance" → s ≠ "bybit" → s ≠ "hyperliquid" → s ≠ "lighter" →
      mapExchange s = s := by
    intro s h1 h2 h3 h4
    have b1 : (s == "binance") = false := beq_eq_false_iff_ne.mpr h1
    have b2 : (s == "bybit") = false := beq_eq_false_iff_ne.mpr h2
    have b3 : (s == "hyperliquid") = false := beq_eq_false_iff_ne.mpr h3
    have b4 : (s == "lighter") = false := beq_eq_false_iff_ne.mpr h4
    simp [mapExchange, EXCHANGE_MAP, List.lookup, b1, b2, b3, b4]
  constructor
  · intro s
    by_cases h1 : s = "binance"
    · subst h1
      rw [show mapExchange "binance" = "binance_lighter" from rfl]
      exact key _ (by decide) (by decide) (by decide) (by decide)
    by_cases h2 : s = "bybit"
    · subst h2
      rw [show mapExchange "bybit" = "bybit_lighter" from rfl]
      exact key _ (by decide) (by decide) (by decide) (by decide)
    by_cases h3 : s = "hyperliquid"
    · subst h3
      rw [show mapExchange "hyperliquid" = "hyperliquid_lighter" from rfl]
      exact key _ (by decide) (by decide) (by decide) (by decide)
    by_cases h4 : s = "lighter"
    · subst h4
      rfl
    · rw [key s h1 h2 h3 h4]
      exact key s h1 h2 h3 h4
  · intro data t rows hp kv hkv
    unfold parse_response_lighter at hp
    split at hp
    · obtain rfl : ([] : List ((String × String) × NRecord)) = rows :=
        Option.some.inj hp
      simp at hkv
    · rcases hg : data.getField "funding_rates" with _ | fr
      · rw [hg] at hp
        obtain rfl : ([] : List ((String × String) × NRecord)) = rows :=
          Option.some.inj hp
        simp at hkv
      · rw [hg] at hp
        cases fr with
        | arr records =>
          simp only [bind, Option.bind_eq_some, Option.pure_def,
            Option.some.injEq] at hp
          obtain ⟨rws, hmap, heq⟩ := hp
          subst heq
          have hkv' : kv ∈ rws := by
            rcases mem_foldl_dinsert rws [] kv hkv with h | h
            · simp at h
            · exact h
          obtain ⟨record, hrec, hrow⟩ := mapOpt_mem (lighterRow t) records rws hmap kv hkv'
          obtain ⟨e, sym, rate, he, _, _, hkveq⟩ := lighterRow_spec t record kv hrow
          exact ⟨records, record, rfl, hrec, e, he, by rw [hkveq], by rw [hkveq]⟩
        | null => simp at hp
        | bool b => simp at hp
        | num q => simp at hp
        | str s => simp at hp
        | obj fs => simp at hp

/-- Witness for C6's parser part: a one-record aggregator payload with a
mapped venue name. -/
theorem C6_exchange_mapping_witness :
    (mapExchange (mapExchange "binance") = mapExchange "binance") ∧
    (∃ records record,
      (JVal.obj [("code", .num 200),
        ("funding_rates", .arr [.obj [("market_id", .num 1),
          ("exchange", .str "binance"), ("symbol", .str "BTC"),
          ("rate", .str "0.01")]])]).getField "funding_rates" =
            some (.arr records) ∧ record ∈ records ∧
      ∃ e, record.getField "exchange" = some (.str e) ∧
        ((("binance_lighter", "BTC"),
          { time := 5, exchange := "binance_lighter", symbol := "BTC",
            price := none, volume_24h := none, open_interest := none,
            funding_rate := some (.str "0.01"), bid := none,
            ask := none }) : (String × String) × NRecord).2.exchange =
              mapExchange e ∧ "binance_lighter" = mapExchange e) := by
  refine ⟨C6_exchange_mapping.1 "binance", ?_⟩
  exact C6_exchange_mapping.2
    (JVal.obj [("code", .num 200),
      ("funding_rates", .arr [.obj [("market_id", .num 1),
        ("exchange", .str "binance"), ("symbol", .str "BTC"),
        ("rate", .str "0.01")]])]) 5
    [(("binance_lighter", "BTC"),
      { time := 5, exchange := "binance_lighter", symbol := "BTC",
        price := none, volume_24h := none, open_interest := none,
        funding_rate := some (.str "0.01"), bid := none, ask := none })] rfl
    (("binance_lighter", "BTC"),
      { time := 5, exchange := "binance_lighter", symbol := "BTC",
        price := none, volume_24h := none, open_interest := none,
        funding_rate := some (.str "0.01"), bid := none, ask := none })
    (by simp)

/-- C8: validation raises on a non-dict payload, a missing `code` field, a
missing `funding_rates` field, and on any rate record missing one of
`market_id`, `exchange`, `symbol`, `rate`; and on a rejected payload the
attempt never reaches the parser — no record is normalized (validation
completes before parsing begins). -/
theorem C8_validation_rejects :
    (∀ d : JVal, d.isObj = false →
       validate_response d = .error "Response must be a dictionary") ∧
    (∀ d : JVal, d.isObj = true → d.getField "code" = none →
       validate_response d = .error "Response missing code field") ∧
    (∀ d : JVal, (d.getField "code").isSome = true →
       d.getField "funding_rates" = none →
       validate_response d = .error "Response missing funding_rates field") ∧
    (∀ (d : JVal) (records : List JVal) (record : JVal) (f : String),
       (d.getField "code").isSome = true →
       d.getField "funding_rates" = some (.arr records) →
       record ∈ records → f ∈ ["market_id", "exchange", "symbol", "rate"] →
       record.getField f = none →
       validate_response d = .error "Record missing required fields") ∧
    (∀ (t : Nat) (b : JVal) (e : String), validate_response b = .error e →
       attemptStep t (.status 200 b) = .inr ()) := by
  refine ⟨?_, ?_, ?_, ?_, ?_⟩
  · intro d h
    cases d <;> simp_all [JVal.isObj, validate_response]
  · intro d hobj hcode
    obtain ⟨fs, rfl⟩ : ∃ fs, d = .obj fs := by
      cases d <;> simp_all [JVal.isObj]
    simp [validate_response, hcode]
  · intro d hcode hfr
    obtain ⟨x, hx⟩ := Option.isSome_iff_exists.mp hcode
    obtain ⟨fs, rfl⟩ := JVal.getField_some_obj hx
    simp [validate_response, hx, hfr]
  · intro d records record f hcode hfr hrec hf hmiss
    obtain ⟨x, hx⟩ := Option.isSome_iff_exists.mp hcode
    obtain ⟨fs, rfl⟩ := JVal.getField_some_obj hx
    have hall : (records.all (fun record =>
        ["market_id", "exchange", "symbol", "rate"].all
          (fun f => (record.getField f).isSome))) = false := by
      rw [Bool.eq_false_iff]
      intro hall
      have h1 := List.all_eq_true.mp hall record hrec
      have h2 := List.all_eq_true.mp h1 f hf
      rw [hmiss] at h2
      simp at h2
    simp only [validate_response]
    rw [hx, hfr]
    simp only [Option.isNone_some]
    rw [hall]
    simp
  · intro t b e he
    simp [attemptStep, he]

/-- Witness for C8: each malformed shape at a concrete payload, and the
retry-branch classification of an attempt serving the last of them. -/
theorem C8_validation_rejects_witness :
    validate_response (.arr []) = .error "Response must be a dictionary" ∧
    validate_response (.obj [("funding_rates", .arr [])]) =
      .error "Response missing code field" ∧
    validate_response (.obj [("code", .num 200)]) =
      .error "Response missing funding_rates field" ∧
    validate_response (.obj [("code", .num 200),
        ("funding_rates", .arr [.obj [("market_id", .num 1),
          ("exchange", .str "binance"), ("symbol", .str "BTC")]])]) =
      .error "Record missing required fields" ∧
    attemptStep 0 (.status 200 (.obj [("code", .num 200),
        ("funding_rates", .arr [.obj [("market_id", .num 1),
          ("exchange", .str "binance"), ("symbol", .str "BTC")]])])) = .inr () := by
  refine ⟨C8_validation_rejects.1 (.arr []) rfl,
    C8_validation_rejects.2.1 (.obj [("funding_rates", .arr [])]) rfl rfl,
    C8_validation_rejects.2.2.1 (.obj [("code", .num 200)]) rfl rfl,
    C8_validation_rejects.2.2.2.1 (.obj [("code", .num 200),
        ("funding_rates", .arr [.obj [("market_id", .num 1),
          ("exchange", .str "binance"), ("symbol", .str "BTC")]])])
      [.obj [("market_id", .num 1), ("exchange", .str "binance"),
        ("symbol", .str "BTC")]]
      (.obj [("market_id", .num 1), ("exchange", .str "binance"),
        ("symbol", .str "BTC")])
      "rate" rfl rfl (by simp) (by simp) rfl,
    C8_validation_rejects.2.2.2.2 0 _ "Record missing required fields" ?_⟩
  exact C8_validation_rejects.2.2.2.1 _
      [.obj [("market_id", .num 1), ("exchange", .str "binance"),
        ("symbol", .str "BTC")]]
      (.obj [("market_id", .num 1), ("exchange", .str "binance"),
        ("symbol", .str "BTC")])
      "rate" rfl rfl (by simp) (by simp) rfl


/-- C9: every record of a batch produced by one normalizer invocation (one
collection tick) carries the single collection instant taken at the start
of that invocation — in both collectors. -/
theorem C9_batch_single_time :
    (∀ data t res, parse_response_hl data t = some res →
       ∀ kv ∈ res, (kv : String × NRecord).2.time = t) ∧
    (∀ data t res, parse_response_lighter data t = some res →
       ∀ kv ∈ res, (kv : (String × String) × NRecord).2.time = t) := by
  constructor
  · intro data t res hp kv hkv
    unfold parse_response_hl at hp
    split at hp
    · obtain rfl : ([] : List (String × NRecord)) = res := Option.some.inj hp
      simp at hkv
    · split at hp
      · split at hp
        · obtain rfl : ([] : List (String × NRecord)) = res := Option.some.inj hp
          simp at hkv
        · split at hp
          · simp only [bind, Option.bind_eq_some, Option.pure_def,
              Option.some.injEq] at hp
            obtain ⟨rows, hmap, heq⟩ := hp
            subst heq
            have hkv' : kv ∈ rows := by
              rcases mem_foldl_dinsert rows [] kv hkv with h | h
              · simp at h
              · exact h
            obtain ⟨p, _, hrow⟩ := mapOpt_mem _ _ rows hmap kv hkv'
            exact (hlRow_spec t p.1 p.2 kv hrow).2.1
          · simp at hp
      · simp at hp
  · intro data t res hp kv hkv
    unfold parse_response_lighter at hp
    split at hp
    · obtain rfl : ([] : List ((String × String) × NRecord)) = res :=
        Option.some.inj hp
      simp at hkv
    · cases hg : data.getField "funding_rates" with
      | none =>
        rw [hg] at hp
        obtain rfl : ([] : List ((String × String) × NRecord)) = res :=
          Option.some.inj hp
        simp at hkv
      | some fr =>
        rw [hg] at hp
        cases fr with
        | arr records =>
          simp only [bind, Option.bind_eq_some, Option.pure_def,
            Option.some.injEq] at hp
          obtain ⟨rows, hmap, heq⟩ := hp
          subst heq
          have hkv' : kv ∈ rows := by
            rcases mem_foldl_dinsert rows [] kv hkv with h | h
            · simp at h
            · exact h
          obtain ⟨record, _, hrow⟩ := mapOpt_mem _ _ rows hmap kv hkv'
          obtain ⟨e, sym, rate, _, _, _, hkveq⟩ :=
            lighterRow_spec t record kv hrow
          rw [hkveq]
        | null => simp at hp
        | bool b => simp at hp
        | num q => simp at hp
        | str s => simp at hp
        | obj fs => simp at hp

/-- Witness for C9: concrete one-record payloads for both collectors. -/
theorem C9_batch_single_time_witness :
    parse_response_hl
      (.arr [.obj [("universe", .arr [.obj [("name", .str "A")]])],
             .arr [.obj []]]) 7 =
      some [("A",
        { time := 7, exchange := "hyperliquid", symbol := "A", price := none,
          volume_24h := none, open_interest := none, funding_rate := none,
          bid := none, ask := none })] ∧
    (("A",
      { time := 7, exchange := "hyperliquid", symbol := "A", price := none,
        volume_24h := none, open_interest := none, funding_rate := none,
        bid := none, ask := none }) : String × NRecord).2.time = 7 ∧
    parse_response_lighter
      (.obj [("code", .num 200),
        ("funding_rates", .arr [.obj [("market_id", .num 1),
          ("exchange", .str "lighter"), ("symbol", .str "ETH"),
          ("rate", .num (1/2))]])]) 5 =
      some [(("lighter", "ETH"),
        { time := 5, exchange := "lighter", symbol := "ETH", price := none,
          volume_24h := none, open_interest := none,
          funding_rate := some (.num (1/2)), bid := none, ask := none })] ∧
    ((("lighter", "ETH"),
      { time := 5, exchange := "lighter", symbol := "ETH", price := none,
        volume_24h := none, open_interest := none,
        funding_rate := some (.num (1/2)), bid := none, ask := none }) :
          (String × String) × NRecord).2.time = 5 :=
  ⟨rfl,
   C9_batch_single_time.1
     (.arr [.obj [("universe", .arr [.obj [("name", .str "A")]])],
            .arr [.obj []]]) 7
     [("A",
       { time := 7, exchange := "hyperliquid", symbol := "A", price := none,
         volume_24h := none, open_interest := none, funding_rate := none,
         bid := none, ask := none })] rfl _ (by simp),
   rfl,
   C9_batch_single_time.2
     (.obj [("code", .num 200),
       ("funding_rates", .arr [.obj [("market_id", .num 1),
         ("exchange", .str "lighter"), ("symbol", .str "ETH"),
         ("rate", .num (1/2))]])]) 5
     [(("lighter", "ETH"),
       { time := 5, exchange := "lighter", symbol := "ETH", price := none,
         volume_24h := none, open_interest := none,
         funding_rate := some (.num (1/2)), bid := none, ask := none })]
     rfl _ (by simp)⟩

/-- C10: a market-context field that is present but falsy is handled
exactly like an absent field — the record value is `None`; in particular an
empty `impactPxs` list yields absent bid and ask, while a one-element
`impactPxs` list yields a present bid and an absent ask. -/
theorem C10_falsy_treated_absent :
    (∀ (m : JVal) (k : String), (m.pyGet k).truthy = false →
       hlOptField m k = some none) ∧
    (∀ (m : JVal) (k : String), m.getField k = none →
       hlOptField m k = some none) ∧
    (∀ (t : Nat) (si mi : JVal) (kv : String × NRecord),
       mi.pyGet "impactPxs" = .arr [] → hlRow t si mi = some kv →
       kv.2.bid = none ∧ kv.2.ask = none) ∧
    (∀ (t : Nat) (si mi : JVal) (kv : String × NRecord) (x d : JVal),
       mi.pyGet "impactPxs" = .arr [x] → x.pyDecimal = some d →
       hlRow t si mi = some kv →
       kv.2.bid = some d ∧ kv.2.ask = none) := by
  have base : ∀ (m : JVal) (k : String), (m.pyGet k).truthy = false →
      hlOptField m k = some none := by
    intro m k h
    simp [hlOptField, h]
  refine ⟨base, ?_, ?_, ?_⟩
  · intro m k h
    exact base m k (by simp [JVal.pyGet, h, JVal.truthy])
  · intro t si mi kv hip h
    obtain ⟨_, _, _, _, hbid, hask⟩ := hlRow_spec t si mi kv h
    rw [hip] at hbid hask
    have hb : bidOf (.arr []) = some none := rfl
    have ha : askOf (.arr []) = some none := rfl
    rw [hb] at hbid
    rw [ha] at hask
    exact ⟨(Option.some.inj hbid).symm, (Option.some.inj hask).symm⟩
  · intro t si mi kv x d hip hd h
    obtain ⟨_, _, _, _, hbid, hask⟩ := hlRow_spec t si mi kv h
    rw [hip] at hbid hask
    have hb : bidOf (.arr [x]) = some (some d) := by
      simp [bidOf, JVal.truthy, JVal.pyIndex, hd]
    have ha : askOf (.arr [x]) = some none := by
      simp [askOf, JVal.truthy, JVal.pyLen]
    rw [hb] at hbid
    rw [ha] at hask
    exact ⟨(Option.some.inj hbid).symm, (Option.some.inj hask).symm⟩

/-- Witness for C10: an empty-string mark price, an absent key, an empty
and a one-element impact-price list. -/
theorem C10_falsy_treated_absent_witness :
    hlOptField (.obj [("markPx", .str "")]) "markPx" = some none ∧
    hlOptField (.obj []) "markPx" = some none ∧
    (({ time := 0, exchange := "hyperliquid", symbol := "A", price := none,
        volume_24h := none, open_interest := none, funding_rate := none,
        bid := none, ask := none } : NRecord).bid = none ∧
     ({ time := 0, exchange := "hyperliquid", symbol := "A", price := none,
        volume_24h := none, open_interest := none, funding_rate := none,
        bid := none, ask := none } : NRecord).ask = none) ∧
    (({ time := 0, exchange := "hyperliquid", symbol := "A", price := none,
        volume_24h := none, open_interest := none, funding_rate := none,
        bid := some (.str "9"), ask := none } : NRecord).bid =
          some (.str "9") ∧
     ({ time := 0, exchange := "hyperliquid", symbol := "A", price := none,
        volume_24h := none, open_interest := none, funding_rate := none,
        bid := some (.str "9"), ask := none } : NRecord).ask = none) :=
  ⟨C10_falsy_treated_absent.1 (.obj [("markPx", .str "")]) "markPx" rfl,
   C10_falsy_treated_absent.2.1 (.obj []) "markPx" rfl,
   C10_falsy_treated_absent.2.2.1 0 (.obj [("name", .str "A")])
     (.obj [("impactPxs", .arr [])])
     ("A",
       { time := 0, exchange := "hyperliquid", symbol := "A", price := none,
         volume_24h := none, open_interest := none, funding_rate := none,
         bid := none, ask := none }) rfl rfl,
   C10_falsy_treated_absent.2.2.2 0 (.obj [("name", .str "A")])
     (.obj [("impactPxs", .arr [.str "9"])])
     ("A",
       { time := 0, exchange := "hyperliquid", symbol := "A", price := none,
         volume_24h := none, open_interest := none, funding_rate := none,
         bid := some (.str "9"), ask := none })
     (.str "9") (.str "9") rfl rfl rfl⟩

/-- Unfolding of the direct-exchange parser on a non-empty array payload. -/
theorem parse_response_hl_arr (xs : List JVal) (t : Nat) (h : xs ≠ []) :
    parse_response_hl (.arr xs) t =
      (if xs.length < 2 then some [] else
        match (xs.getD 0 .null).getField "universe", xs.getD 1 .null with
        | some (.arr univ), .arr market_data => do
          let rows ← mapOpt (fun p => hlRow t p.1 p.2) (univ.zip market_data)
          pure (rows.foldl (fun d kv => dinsert d kv.1 kv.2) [])
        | _, _ => none) := by
  unfold parse_response_hl
  rw [if_neg (by simp [JVal.truthy, h])]

/-- Unfolding of the direct-exchange parser on a well-shaped payload: a
two-or-more element array whose head carries a `universe` list and whose
second element is the market-context list. -/
theorem parse_response_hl_good (x0 : JVal) (univ market_data rest : List JVal)
    (t : Nat) (hx0 : x0.getField "universe" = some (.arr univ)) :
    parse_response_hl (.arr (x0 :: .arr market_data :: rest)) t = (do
      let rows ← mapOpt (fun p => hlRow t p.1 p.2) (univ.zip market_data)
      pure (rows.foldl (fun d kv => dinsert d kv.1 kv.2) [])) := by
  rw [parse_response_hl_arr _ t (by simp)]
  rw [if_neg (by simp only [List.length_cons]; omega)]
  simp only [List.getD_cons_zero, List.getD_cons_succ]
  rw [hx0]

/-- C4 as universally stated is false: the emitted records land in a dict
keyed by the universe entry's name, so duplicate names collapse.  With
`U = M = 2` but both universe entries named `A`, the parser emits one
record, not `min(U, M) = 2`. -/
theorem C4_counterexample :
    (parse_response_hl
      (.arr [.obj [("universe",
          .arr [.obj [("name", .str "A")], .obj [("name", .str "A")]])],
        .arr [.obj [], .obj []]]) 0).map List.length = some 1 ∧
    (1 : Nat) ≠ min 2 2 :=
  ⟨rfl, by decide⟩

/-- C4 amended: on a well-shaped payload whose every contributing position
parses, the normalizer emits exactly `min(U, M)` records provided the
universe names at those positions are pairwise distinct (duplicates
overwrite in the symbol-keyed dict); the record emitted at position `i` is
keyed by `universe[i]`'s name, and surplus entries of the longer list are
silently dropped — the parse succeeds rather than failing the batch. -/
theorem C4_normalizer_min_truncation (x0 : JVal)
    (univ market_data rest : List JVal) (t : Nat)
    (rows : List (String × NRecord))
    (hx0 : x0.getField "universe" = some (.arr univ))
    (hmap : mapOpt (fun p => hlRow t p.1 p.2) (univ.zip market_data) = some rows)
    (hnd : (rows.map Prod.fst).Nodup) :
    parse_response_hl (.arr (x0 :: .arr market_data :: rest)) t = some rows ∧
    rows.length = min univ.length market_data.length ∧
    (∀ (i : Nat) (si : JVal), univ.get? i = some si → i < market_data.length →
       ∃ r, rows.get? i = some r ∧ si.getField "name" = some (.str r.1)) := by
  refine ⟨?_, ?_, ?_⟩
  · rw [parse_response_hl_good x0 univ market_data rest t hx0]
    rw [hmap]
    simp only [bind, Option.some_bind, Option.pure_def]
    rw [foldl_dinsert_nodup rows [] hnd (by intro p hp q hq; simp at hp)]
    simp
  · rw [mapOpt_length _ _ rows hmap, List.length_zip]
  · intro i si hsi hilt
    have hmi : market_data.get? i = some (market_data.get ⟨i, hilt⟩) :=
      List.get?_eq_get hilt
    have hz := zip_get? univ market_data i si (market_data.get ⟨i, hilt⟩) hsi hmi
    obtain ⟨r, hr, hrow⟩ := mapOpt_get? _ _ rows hmap i _ hz
    exact ⟨r, hr, (hlRow_spec t si (market_data.get ⟨i, hilt⟩) r hrow).1⟩

/-- Witness for the amended C4: a 3-entry universe against a 2-entry
market-context list yields exactly the two records of the matched prefix,
keyed in order; the surplus universe entry is dropped. -/
theorem C4_normalizer_min_truncation_witness :
    parse_response_hl
      (.arr [.obj [("universe",
          .arr [.obj [("name", .str "BTC")], .obj [("name", .str "ETH")],
                .obj [("name", .str "SOL")]])],
        .arr [.obj [], .obj []]]) 3 =
      some [("BTC",
        { time := 3, exchange := "hyperliquid", symbol := "BTC",
          price := none, volume_24h := none, open_interest := none,
          funding_rate := none, bid := none, ask := none }),
       ("ETH",
        { time := 3, exchange := "hyperliquid", symbol := "ETH",
          price := none, volume_24h := none, open_interest := none,
          funding_rate := none, bid := none, ask := none })] ∧
    ([("BTC",
        { time := 3, exchange := "hyperliquid", symbol := "BTC",
          price := none, volume_24h := none, open_interest := none,
          funding_rate := none, bid := none, ask := none }),
      ("ETH",
        { time := 3, exchange := "hyperliquid", symbol := "ETH",
          price := none, volume_24h := none, open_interest := none,
          funding_rate := none, bid := none, ask := none })] :
        List (String × NRecord)).length = min 3 2 :=
  ⟨(C4_normalizer_min_truncation
      (.obj [("universe",
        .arr [.obj [("name", .str "BTC")], .obj [("name", .str "ETH")],
              .obj [("name", .str "SOL")]])])
      [.obj [("name", .str "BTC")], .obj [("name", .str "ETH")],
       .obj [("name", .str "SOL")]]
      [.obj [], .obj []] [] 3
      [("BTC",
        { time := 3, exchange := "hyperliquid", symbol := "BTC",
          price := none, volume_24h := none, open_interest := none,
          funding_rate := none, bid := none, ask := none }),
       ("ETH",
        { time := 3, exchange := "hyperliquid", symbol := "ETH",
          price := none, volume_24h := none, open_interest := none,
          funding_rate := none, bid := none, ask := none })]
      rfl rfl (by decide)).1,
   (C4_normalizer_min_truncation
      (.obj [("universe",
        .arr [.obj [("name", .str "BTC")], .obj [("name", .str "ETH")],
              .obj [("name", .str "SOL")]])])
      [.obj [("name", .str "BTC")], .obj [("name", .str "ETH")],
       .obj [("name", .str "SOL")]]
      [.obj [], .obj []] [] 3
      [("BTC",
        { time := 3, exchange := "hyperliquid", symbol := "BTC",
          price := none, volume_24h := none, open_interest := none,
          funding_rate := none, bid := none, ask := none }),
       ("ETH",
        { time := 3, exchange := "hyperliquid", symbol := "ETH",
          price := none, volume_24h := none, open_interest := none,
          funding_rate := none, bid := none, ask := none })]
      rfl rfl (by decide)).2.1⟩

/-- C7 as stated is false in the single-exchange shape: with a single
ranked key (fewer than 10), the short-opportunities list is empty instead
of containing all keys. -/
theorem C7_counterexample :
    top_10_short
      [{ symbol := "BTC", funding_3d_avg := -1, data_points := 3 }] = [] ∧
    ([{ symbol := "BTC", funding_3d_avg := -1, data_points := 3 }] :
      List AggRow) ≠ [] :=
  ⟨rfl, by simp⟩

/-- C7 amended: the long list is always the ascending ranking truncated to
10 (all keys when fewer than 10 exist); in the single-exchange shape the
short list is the descending ranking truncated to 10 only when at least 10
keys exist, and is empty otherwise; in the by-exchange shape both lists
are the respective rankings truncated to 10 and contain all of the venue's
keys when it has at most 10. -/
theorem C7_opportunity_ranking (all_symbols : List AggRow)
    (hs : all_symbols.Pairwise (fun a b => a.funding_3d_avg ≤ b.funding_3d_avg)) :
    (top_10_long all_symbols = all_symbols.take 10 ∧
     (top_10_long all_symbols).Pairwise
       (fun a b => a.funding_3d_avg ≤ b.funding_3d_avg)) ∧
    (all_symbols.length < 10 → top_10_short all_symbols = []) ∧
    (10 ≤ all_symbols.length →
       top_10_short all_symbols = all_symbols.reverse.take 10 ∧
       (top_10_short all_symbols).Pairwise
         (fun a b => b.funding_3d_avg ≤ a.funding_3d_avg)) ∧
    (∀ (all_data : List AggRowEx) (venue : String),
       (long_opportunities all_data venue).Pairwise
         (fun a b => a.avg_funding_rate ≤ b.avg_funding_rate) ∧
       (short_opportunities all_data venue).Pairwise
         (fun a b => b.avg_funding_rate ≤ a.avg_funding_rate) ∧
       ((all_data.filter (fun r => r.exchange == venue)).length ≤ 10 →
          (long_opportunities all_data venue).Perm
            (all_data.filter (fun r => r.exchange == venue)) ∧
          (short_opportunities all_data venue).Perm
            (all_data.filter (fun r => r.exchange == venue)))) := by
  have hlong : top_10_long all_symbols = all_symbols.take 10 := by
    unfold top_10_long
    split
    · rfl
    · rw [List.take_of_length_le (Nat.le_of_lt (Nat.not_le.mp (by assumption)))]
  refine ⟨⟨hlong, ?_⟩, ?_, ?_, ?_⟩
  · rw [hlong]
    exact List.Pairwise.sublist (List.take_sublist 10 all_symbols) hs
  · intro h
    simp [top_10_short, Nat.not_le.mpr h]
  · intro h
    constructor
    · rw [top_10_short, if_pos h, List.take_reverse]
    · rw [top_10_short, if_pos h]
      refine List.pairwise_reverse.mpr ?_
      exact List.Pairwise.sublist (List.drop_sublist _ all_symbols) hs
  · intro all_data venue
    have htrans : ∀ (a b c : AggRowEx),
        decide (a.avg_funding_rate ≤ b.avg_funding_rate) = true →
        decide (b.avg_funding_rate ≤ c.avg_funding_rate) = true →
        decide (a.avg_funding_rate ≤ c.avg_funding_rate) = true := by
      intro a b c hab hbc
      exact decide_eq_true
        (le_trans (of_decide_eq_true hab) (of_decide_eq_true hbc))
    have htot : ∀ (a b : AggRowEx),
        (decide (a.avg_funding_rate ≤ b.avg_funding_rate) ||
         decide (b.avg_funding_rate ≤ a.avg_funding_rate)) = true := by
      intro a b
      rcases le_total a.avg_funding_rate b.avg_funding_rate with h | h
      · simp [h]
      · simp [h]
    have htransd : ∀ (a b c : AggRowEx),
        decide (b.avg_funding_rate ≤ a.avg_funding_rate) = true →
        decide (c.avg_funding_rate ≤ b.avg_funding_rate) = true →
        decide (c.avg_funding_rate ≤ a.avg_funding_rate) = true := by
      intro a b c hab hbc
      exact decide_eq_true
        (le_trans (of_decide_eq_true hbc) (of_decide_eq_true hab))
    have htotd : ∀ (a b : AggRowEx),
        (decide (b.avg_funding_rate ≤ a.avg_funding_rate) ||
         decide (a.avg_funding_rate ≤ b.avg_funding_rate)) = true := by
      intro a b
      rcases le_total a.avg_funding_rate b.avg_funding_rate with h | h
      · simp [h]
      · simp [h]
    refine ⟨?_, ?_, ?_⟩
    · exact List.Pairwise.sublist (List.take_sublist 10 _)
        ((List.sorted_mergeSort htrans htot _).imp (fun h => of_decide_eq_true h))
    · exact List.Pairwise.sublist (List.take_sublist 10 _)
        ((List.sorted_mergeSort htransd htotd _).imp (fun h => of_decide_eq_true h))
    · intro hlen
      constructor
      · rw [long_opportunities, List.take_of_length_le]
        · exact List.mergeSort_perm _ _
        · rw [sortedByRate, List.length_mergeSort]
          exact hlen
      · rw [short_opportunities, List.take_of_length_le]
        · exact List.mergeSort_perm _ _
        · rw [sortedByRateDesc, List.length_mergeSort]
          exact hlen

/-- Witness for the amended C7: a two-key ascending result set (long list
keeps both keys, short list is empty), and a one-row venue whose by-venue
long list is a permutation of all its rows. -/
theorem C7_opportunity_ranking_witness :
    top_10_long
      [{ symbol := "A", funding_3d_avg := -1, data_points := 1 },
       { symbol := "B", funding_3d_avg := 2, data_points := 1 }] =
      ([{ symbol := "A", funding_3d_avg := -1, data_points := 1 },
        { symbol := "B", funding_3d_avg := 2, data_points := 1 }] :
          List AggRow).take 10 ∧
    top_10_short
      [{ symbol := "A", funding_3d_avg := -1, data_points := 1 },
       { symbol := "B", funding_3d_avg := 2, data_points := 1 }] = [] ∧
    (long_opportunities
      [{ exchange := "hyperliquid", symbol := "A", avg_funding_rate := 1,
         data_points := 1 }] "hyperliquid").Perm
      (([{ exchange := "hyperliquid", symbol := "A", avg_funding_rate := 1,
           data_points := 1 }] : List AggRowEx).filter
        (fun r => r.exchange == "hyperliquid")) := by
  have hs : ([{ symbol := "A", funding_3d_avg := -1, data_points := 1 },
      { symbol := "B", funding_3d_avg := 2, data_points := 1 }] :
        List AggRow).Pairwise
      (fun a b => a.funding_3d_avg ≤ b.funding_3d_avg) := by
    simp only [List.pairwise_cons]
    norm_num
  refine ⟨(C7_opportunity_ranking _ hs).1.1,
    (C7_opportunity_ranking _ hs).2.1 (by simp),
    ((C7_opportunity_ranking _ hs).2.2.2
      [{ exchange := "hyperliquid", symbol := "A", avg_funding_rate := 1,
         data_points := 1 }] "hyperliquid").2.2 (by simp) |>.1⟩
